import Mathlib

/-!
Verification development for the SmartAgenticConverter repository.

Shallow embedding of the deterministic parts of the code base:
  * `datetimeHelper.js` — holiday resolution (`parseSpecialDates`,
    `getThanksgiving`, `getNextThanksgiving`) and the AM/PM arithmetic of the
    `timezone` branch of `handleDateTimeRequest`;
  * `lib/convert-units.js` — the unit table, `findMeasure`,
    `convertTemperature` and `Convert.to`;
  * `unitConverter.js` — `normalizeUnit`, `canConvert`, `convertUnits`,
    `handleConversion` (post-parse part);
  * `currencyConverter.js` — `getExchangeRate`, `getFallbackRate`,
    `convertCurrency` with the rate cache made an explicit value and the
    network fetch an explicit parameter;
  * `agent.js` — the conversation-history update of `processQuery`.

JavaScript numbers are modelled by exact rationals (`ℚ`), timestamps by `ℤ`
milliseconds, calendar dates by proleptic-Gregorian day numbers.
-/

/- ## String primitives

`String.toLowerCase` / `toUpperCase` / `trim` of JavaScript, restricted to
the ASCII range (every alias and code the source compares is ASCII).  Defined
structurally on the character list so that they evaluate inside the kernel. -/

def strLower (s : String) : String := ⟨s.data.map Char.toLower⟩

def strUpper (s : String) : String := ⟨s.data.map Char.toUpper⟩

def strTrim (s : String) : String :=
  ⟨((s.data.dropWhile Char.isWhitespace).reverse.dropWhile Char.isWhitespace).reverse⟩

/- ## Calendar model

`new Date(year, monthIndex, day)` is modelled by the triple `Ymd` (month kept
0-based exactly as in the JavaScript constructor calls).  `absOfYmd` maps a
triple to the absolute (proleptic Gregorian) day number, with day 1 =
January 1 of year 1; an out-of-range `day` field is normalized by the
arithmetic exactly as the JavaScript `Date` constructor normalizes it. -/

structure Ymd where
  year : ℕ
  month : ℕ
  day : ℤ
deriving DecidableEq, Repr

def isLeap (y : ℕ) : Bool :=
  (y % 4 == 0 && y % 100 != 0) || (y % 400 == 0)

/-- Days strictly before January 1 of year `y` (proleptic Gregorian, `y ≥ 1`). -/
def daysBeforeYear (y : ℕ) : ℕ :=
  365 * (y - 1) + (y - 1) / 4 - (y - 1) / 100 + (y - 1) / 400

/-- Days of year `y` strictly before the first of 0-based month `m`. -/
def daysBeforeMonth (leap : Bool) (m : ℕ) : ℕ :=
  [0, 31, 59, 90, 120, 151, 181, 212, 243, 273, 304, 334].getD m 0 +
    (if leap && decide (2 ≤ m) then 1 else 0)

def absOfYmd (d : Ymd) : ℤ :=
  (daysBeforeYear d.year + daysBeforeMonth (isLeap d.year) d.month : ℤ) + d.day

/-- JavaScript `Date.prototype.getDay`: 0 = Sunday … 6 = Saturday.  Day 1 of the absolute
count (January 1 of year 1) is a Monday. -/
def jsWeekday (t : ℤ) : ℤ := t % 7

/-- The value `now = new Date()` as the source consumes it: the current year
(`getFullYear`), the absolute day number of today's date, and whether the
current time is strictly past local midnight (which is what decides the
comparison `new Date(y, m, d) < now` when the two fall on the same day). -/
structure Now where
  year : ℕ
  absDay : ℤ
  afterMidnight : Bool

/-- The comparison `date < now` for a `date` constructed at local midnight. -/
def dateLtNow (dateAbs : ℤ) (now : Now) : Bool :=
  dateAbs < now.absDay || (dateAbs == now.absDay && now.afterMidnight)

/- ## datetimeHelper.js -/

/-- Function `getThanksgiving` (datetimeHelper.js lines 471-480):
`november = new Date(year, 10, 1)`,
`firstThursday = 4 - november.getDay() + (november.getDay() === 0 ? -3 : 1)`,
result `new Date(year, 10, firstThursday + 21)`. -/
def getThanksgiving (year : ℕ) : Ymd :=
  let november : Ymd := ⟨year, 10, 1⟩
  let w := jsWeekday (absOfYmd november)
  let firstThursday : ℤ := 4 - w + (if w = 0 then -3 else 1)
  ⟨year, 10, firstThursday + 21⟩

/-- Function `getNextThanksgiving` (lines 485-495). -/
def getNextThanksgiving (now : Now) (currentYear : ℕ) : Ymd :=
  let thanksgiving := getThanksgiving currentYear
  if dateLtNow (absOfYmd thanksgiving) now then getThanksgiving (currentYear + 1)
  else thanksgiving

/-- The helper `getNextOccurrence` defined inside `parseSpecialDates`
(lines 439-446): this year's date, or next year's if it has already passed. -/
def getNextOccurrence (now : Now) (month : ℕ) (day : ℤ) : Ymd :=
  let date : Ymd := ⟨now.year, month, day⟩
  if dateLtNow (absOfYmd date) now then ⟨now.year + 1, month, day⟩ else date

/-- Function `parseSpecialDates` (lines 432-466); the lookup in the `specialDates`
object literal is rendered as a chain of key comparisons on
`dateString.toLowerCase().trim()`. -/
def parseSpecialDates (now : Now) (dateString : String) : Option Ymd :=
  let normalized := strTrim (strLower dateString)
  if normalized = "christmas" then some (getNextOccurrence now 11 25)
  else if normalized = "new year" then some ⟨now.year + 1, 0, 1⟩
  else if normalized = "new years" then some ⟨now.year + 1, 0, 1⟩
  else if normalized = "halloween" then some (getNextOccurrence now 9 31)
  else if normalized = "valentine" then some (getNextOccurrence now 1 14)
  else if normalized = "valentines" then some (getNextOccurrence now 1 14)
  else if normalized = "thanksgiving" then some (getNextThanksgiving now now.year)
  else none

/-- Spec-side definition (follows the specification's words, for comparison
with `getThanksgiving`): the fourth Thursday of November of a year, i.e. the
first Thursday on or after November 1 plus 21 days. -/
def specFourthThursdayOfNovember (year : ℕ) : Ymd :=
  let w := jsWeekday (absOfYmd ⟨year, 10, 1⟩)
  ⟨year, 10, (4 - w) % 7 + 1 + 21⟩

/-- The AM/PM normalization of the `timezone` branch of
`handleDateTimeRequest` (datetimeHelper.js lines 560-566):
`if (period === 'PM' && hours !== 12) hours += 12;`
`if (period === 'AM' && hours === 12) hours = 0;`. -/
def applyAmPm (hours : ℕ) (period : Option String) : ℕ :=
  let hours := if period == some "PM" && hours != 12 then hours + 12 else hours
  let hours := if period == some "AM" && hours == 12 then 0 else hours
  hours

/-- An instant as (absolute day, minutes past local midnight); seconds and
milliseconds are zeroed by `setHours(hours, minutes, 0, 0)` and not tracked. -/
structure Moment where
  day : ℤ
  minutesOfDay : ℤ
deriving DecidableEq, Repr

/-- Statement `todayWithTime.setHours(hours, minutes, 0, 0)` on today's date: `Date`
normalizes an hour overflow into the following day(s). -/
def setTodayTime (todayDay : ℤ) (hours minutes : ℕ) : Moment :=
  let total : ℤ := (hours : ℤ) * 60 + (minutes : ℤ)
  ⟨todayDay + total / 1440, total % 1440⟩

/-- The date-time value handed to `convertTimezone` by the `timezone` branch
(lines 556-570): today's calendar date combined with the AM/PM-normalized
hours and the parsed minutes. -/
def timezoneBranchMoment (todayDay : ℤ) (hours minutes : ℕ)
    (period : Option String) : Moment :=
  setTodayTime todayDay (applyAmPm hours period) minutes

/- ## lib/convert-units.js -/

/-- One entry of the `conversions` table.  The source's temperature entries
carry no `ratio` field; the temperature path of `Convert.to` never reads it,
so those entries are given the unused placeholder value 0 here. -/
structure UnitData where
  name : String
  ratio : ℚ
deriving DecidableEq, Repr

/-- The `conversions` object literal (lib/convert-units.js lines 10-74), in
source order. -/
def conversions : List (String × List (String × UnitData)) :=
  [("length",
    [("m", ⟨"meter", 1⟩), ("km", ⟨"kilometer", 1000⟩), ("cm", ⟨"centimeter", 0.01⟩),
     ("mm", ⟨"millimeter", 0.001⟩), ("in", ⟨"inch", 0.0254⟩), ("ft", ⟨"foot", 0.3048⟩),
     ("yd", ⟨"yard", 0.9144⟩), ("mi", ⟨"mile", 1609.344⟩)]),
   ("mass",
    [("g", ⟨"gram", 1⟩), ("kg", ⟨"kilogram", 1000⟩), ("lb", ⟨"pound", 453.592⟩),
     ("oz", ⟨"ounce", 28.3495⟩), ("ton", ⟨"ton", 1000000⟩)]),
   ("volume",
    [("l", ⟨"liter", 1⟩), ("ml", ⟨"milliliter", 0.001⟩), ("gal", ⟨"gallon", 3.78541⟩),
     ("qt", ⟨"quart", 0.946353⟩), ("pt", ⟨"pint", 0.473176⟩), ("cup", ⟨"cup", 0.236588⟩),
     ("fl-oz", ⟨"fluid ounce", 0.0295735⟩)]),
   ("temperature",
    [("C", ⟨"Celsius", 0⟩), ("F", ⟨"Fahrenheit", 0⟩), ("K", ⟨"Kelvin", 0⟩),
     ("R", ⟨"Rankine", 0⟩)]),
   ("time",
    [("s", ⟨"second", 1⟩), ("min", ⟨"minute", 60⟩), ("h", ⟨"hour", 3600⟩),
     ("d", ⟨"day", 86400⟩), ("week", ⟨"week", 604800⟩), ("month", ⟨"month", 2629746⟩),
     ("year", ⟨"year", 31556952⟩)]),
   ("area",
    [("m2", ⟨"square meter", 1⟩), ("km2", ⟨"square kilometer", 1000000⟩),
     ("cm2", ⟨"square centimeter", 0.0001⟩), ("in2", ⟨"square inch", 0.00064516⟩),
     ("ft2", ⟨"square foot", 0.092903⟩), ("yd2", ⟨"square yard", 0.836127⟩),
     ("mi2", ⟨"square mile", 2589988.11⟩), ("acre", ⟨"acre", 4046.86⟩),
     ("hectare", ⟨"hectare", 10000⟩)])]

/-- Method `Convert.findMeasure` (lines 151-158): first measure whose unit table
contains the unit. -/
def findMeasure (unit : String) : Option String :=
  (conversions.find? (fun p => p.2.any (fun q => q.1 == unit))).map (fun p => p.1)

/-- Lookup `conversions[measure][unit]` (property access used in `Convert.to`). -/
def lookupUnit (measure unit : String) : Option UnitData :=
  match conversions.find? (fun p => p.1 == measure) with
  | some p => (p.2.find? (fun q => q.1 == unit)).map (fun q => q.2)
  | none => none

/-- First half of `convertTemperature` (the first `switch`, lines 81-97). -/
def toCelsius (value : ℚ) (fromUnit : String) : Except String ℚ :=
  match fromUnit with
  | "C" => .ok value
  | "F" => .ok ((value - 32) * 5 / 9)
  | "K" => .ok (value - 273.15)
  | "R" => .ok ((value - 491.67) * 5 / 9)
  | _ => .error ("Unknown temperature unit: " ++ fromUnit)

/-- Second half of `convertTemperature` (the second `switch`, lines 100-111). -/
def fromCelsius (celsius : ℚ) (toUnit : String) : Except String ℚ :=
  match toUnit with
  | "C" => .ok celsius
  | "F" => .ok (celsius * 9 / 5 + 32)
  | "K" => .ok (celsius + 273.15)
  | "R" => .ok (celsius * 9 / 5 + 491.67)
  | _ => .error ("Unknown temperature unit: " ++ toUnit)

/-- Function `convertTemperature` (lines 77-112); a thrown `Error` is an
`Except.error`. -/
def convertTemperature (value : ℚ) (fromUnit toUnit : String) : Except String ℚ :=
  if fromUnit = toUnit then .ok value
  else
    match toCelsius value fromUnit with
    | .ok celsius => fromCelsius celsius toUnit
    | .error e => .error e

/-- Method `Convert.to` (lines 125-149) with the `from` unit passed explicitly. -/
def convertTo (value : ℚ) (fromUnit toUnit : String) : Except String ℚ :=
  match findMeasure fromUnit with
  | none => .error ("Unknown unit: " ++ fromUnit)
  | some measure =>
    if measure = "temperature" then convertTemperature value fromUnit toUnit
    else
      match lookupUnit measure fromUnit, lookupUnit measure toUnit with
      | some fromData, some toData => .ok (value * fromData.ratio / toData.ratio)
      | _, _ => .error ("Cannot convert from " ++ fromUnit ++ " to " ++ toUnit)

/- ## unitConverter.js -/

/-- The `tempMappings` table of `normalizeTemperatureUnit`
(unitConverter.js). -/
def tempMappings : List (String × String) :=
  [("°c", "C"), ("celsius", "C"), ("c", "C"),
   ("°f", "F"), ("fahrenheit", "F"), ("f", "F"),
   ("°k", "K"), ("kelvin", "K"), ("k", "K")]

/-- Method `normalizeTemperatureUnit`: `tempMappings[unit.toLowerCase()] || unit`
(every mapped value is a nonempty, hence truthy, string). -/
def normalizeTemperatureUnit (unit : String) : String :=
  ((tempMappings.find? (fun q => q.1 == strLower unit)).map (fun q => q.2)).getD unit

/-- The `unitMappings` table of `normalizeUnit`. -/
def unitMappings : List (String × String) :=
  [("meter", "m"), ("meters", "m"), ("metre", "m"), ("metres", "m"),
   ("kilometer", "km"), ("kilometers", "km"), ("kilometre", "km"), ("kilometres", "km"),
   ("mile", "mi"), ("miles", "mi"), ("foot", "ft"), ("feet", "ft"),
   ("inch", "in"), ("inches", "in"), ("yard", "yd"), ("yards", "yd"),
   ("kilogram", "kg"), ("kilograms", "kg"), ("gram", "g"), ("grams", "g"),
   ("pound", "lb"), ("pounds", "lb"), ("ounce", "oz"), ("ounces", "oz"),
   ("liter", "l"), ("liters", "l"), ("litre", "l"), ("litres", "l"),
   ("gallon", "gal"), ("gallons", "gal"), ("cup", "cup"), ("cups", "cup"),
   ("celsius", "C"), ("fahrenheit", "F"), ("kelvin", "K")]

/-- Method `normalizeUnit`: temperature aliases first, then the general table,
unknown tokens pass through unchanged. -/
def normalizeUnit (unit : String) : String :=
  let tempUnit := normalizeTemperatureUnit unit
  if tempUnit ≠ unit then tempUnit
  else ((unitMappings.find? (fun q => q.1 == strLower unit)).map (fun q => q.2)).getD unit

/-- Method `canConvert` (unitConverter.js lines 495-507): both units are known and
their measures coincide (`describe` is `findMeasure` plus the unit data). -/
def canConvert (fromUnit toUnit : String) : Bool :=
  match findMeasure fromUnit, findMeasure toUnit with
  | some fromMeasure, some toMeasure => fromMeasure == toMeasure
  | _, _ => false

/-- The result object of the unit converter; the `formatted` display string
(a fixed 6-decimal rendering of `result`) is not modelled. -/
structure UnitResult where
  success : Bool
  result : Option ℚ
  error : Option String
  fromValue : ℚ
  fromUnit : String
  toUnit : String
deriving DecidableEq, Repr

/-- Method `convertUnits` (lines 512-538): wraps `Convert.to`, catching the throw. -/
def convertUnits (value : ℚ) (fromUnit toUnit : String) : UnitResult :=
  match convertTo value fromUnit toUnit with
  | .ok r => ⟨true, some r, none, value, fromUnit, toUnit⟩
  | .error e => ⟨false, none, some e, value, fromUnit, toUnit⟩

/-- Method `handleConversion` (lines 722-747) from the point where the query has
been parsed into `{value, fromUnit, toUnit}`: normalization, the `canConvert`
guard, then `convertUnits`. -/
def handleParsedConversion (value : ℚ) (rawFrom rawTo : String) : UnitResult :=
  let fromUnit := normalizeUnit rawFrom
  let toUnit := normalizeUnit rawTo
  if !canConvert fromUnit toUnit then
    ⟨false, none,
     some ("Cannot convert from " ++ fromUnit ++ " to " ++ toUnit ++
       ". Units may be incompatible or not supported."),
     value, fromUnit, toUnit⟩
  else convertUnits value fromUnit toUnit

/- ## currencyConverter.js

The rate cache (`this.cache`, a `Map`) is passed and returned explicitly; the
network round trip of `getExchangeRate` is an explicit `FetchOutcome`
parameter: `FetchOutcome.error msg` is a non-ok HTTP response or transport
failure (the `throw` inside the `try`), `FetchOutcome.ok rates` is a parsed
JSON body with a `rates` object (a body without one behaves like an empty
`rates` object except for producing the same thrown message, which the model
reproduces).  `Date.now()` is the explicit millisecond timestamp `now`. -/

structure RateEntry where
  rate : ℚ
  timestamp : ℤ
deriving DecidableEq, Repr

abbrev Cache := List (String × RateEntry)

/-- Map read `this.cache.get(key)`. -/
def cacheGet (cache : Cache) (key : String) : Option RateEntry :=
  (cache.find? (fun p => p.1 == key)).map (fun p => p.2)

/-- Map write `this.cache.set(key, entry)`: replaces any entry stored under the key. -/
def cacheSet (cache : Cache) (key : String) (entry : RateEntry) : Cache :=
  (key, entry) :: cache.filter (fun p => p.1 != key)

/-- Key `fromCurrency.toLowerCase() + '-' + toCurrency.toLowerCase()`. -/
def cacheKeyOf (fromCurrency toCurrency : String) : String :=
  strLower fromCurrency ++ "-" ++ strLower toCurrency

/-- Constant `this.cacheTimeout = 10 * 60 * 1000` milliseconds. -/
def cacheTimeout : ℤ := 10 * 60 * 1000

inductive FetchOutcome where
  | ok (rates : List (String × ℚ))
  | error (msg : String)

/-- Lookup `data.rates[code]`. -/
def ratesGet (rates : List (String × ℚ)) (code : String) : Option ℚ :=
  (rates.find? (fun p => p.1 == code)).map (fun p => p.2)

/-- The `fallbackRates` table of `getFallbackRate`
(currencyConverter.js lines 132-145). -/
def fallbackRates : List (String × ℚ) :=
  [("USD-EUR", 0.85), ("EUR-USD", 1.18), ("USD-GBP", 0.73), ("GBP-USD", 1.37),
   ("USD-JPY", 110.0), ("JPY-USD", 0.009), ("EUR-GBP", 0.86), ("GBP-EUR", 1.16),
   ("USD-CAD", 1.25), ("CAD-USD", 0.80), ("USD-AUD", 1.35), ("AUD-USD", 0.74)]

/-- Method `getFallbackRate` (lines 127-149): `fallbackRates[FROM-TO] || null`. -/
def getFallbackRate (fromCurrency toCurrency : String) : Option ℚ :=
  (fallbackRates.find?
    (fun p => p.1 == strUpper fromCurrency ++ "-" ++ strUpper toCurrency)).map
    (fun p => p.2)

/-- The `catch` block of `getExchangeRate` (lines 111-121): try the fallback
table (`if (fallbackRate)` — every table value is nonzero, hence truthy),
otherwise rethrow the caught error. -/
def rateFallbackOr (cache : Cache) (fromCurrency toCurrency msg : String) :
    Except String ℚ × Cache :=
  match getFallbackRate fromCurrency toCurrency with
  | some fallbackRate => (.ok fallbackRate, cache)
  | none => (.error msg, cache)

/-- The `try` block of `getExchangeRate` (lines 90-121): a throw anywhere in
it (transport failure, non-ok status, or missing/falsy target rate) lands in
the `catch` block `rateFallbackOr`.  The guard
`data.rates && data.rates[toCurrency.toUpperCase()]` is truthiness of the
looked-up rate, so a stored rate of 0 also throws. -/
def fetchExchangeRate (now : ℤ) (fetch : FetchOutcome) (cache : Cache)
    (cacheKey fromCurrency toCurrency : String) : Except String ℚ × Cache :=
  match fetch with
  | .ok rates =>
    match ratesGet rates (strUpper toCurrency) with
    | some rate =>
      if rate ≠ 0 then (.ok rate, cacheSet cache cacheKey ⟨rate, now⟩)
      else rateFallbackOr cache fromCurrency toCurrency
        ("Exchange rate not available for " ++ fromCurrency ++ " to " ++ toCurrency)
    | none => rateFallbackOr cache fromCurrency toCurrency
        ("Exchange rate not available for " ++ fromCurrency ++ " to " ++ toCurrency)
  | .error msg => rateFallbackOr cache fromCurrency toCurrency msg

/-- Method `getExchangeRate` (lines 82-122): answer from the cache when the entry is
younger than `cacheTimeout`, otherwise go through the fetch path. -/
def getExchangeRate (now : ℤ) (fetch : FetchOutcome) (cache : Cache)
    (fromCurrency toCurrency : String) : Except String ℚ × Cache :=
  match cacheGet cache (cacheKeyOf fromCurrency toCurrency) with
  | some cached =>
    if now - cached.timestamp < cacheTimeout then (.ok cached.rate, cache)
    else fetchExchangeRate now fetch cache (cacheKeyOf fromCurrency toCurrency)
      fromCurrency toCurrency
  | none => fetchExchangeRate now fetch cache (cacheKeyOf fromCurrency toCurrency)
      fromCurrency toCurrency

/-- The result object of `convertCurrency`; the `formatted` display string
and the ISO `timestamp` field of the success object are not modelled. -/
structure CurrencyResult where
  success : Bool
  result : Option ℚ
  rate : Option ℚ
  fromAmount : ℚ
  fromCurrency : String
  toCurrency : String
  error : Option String
deriving DecidableEq, Repr

/-- Method `convertCurrency` (lines 154-194): same-currency short circuit, otherwise
`getExchangeRate`, with every thrown error caught and turned into a
`success: false` object carrying the original inputs. -/
def convertCurrency (now : ℤ) (fetch : FetchOutcome) (cache : Cache)
    (amount : ℚ) (fromCurrency toCurrency : String) : CurrencyResult × Cache :=
  if strLower fromCurrency = strLower toCurrency then
    (⟨true, some amount, some 1, amount,
      strUpper fromCurrency, strUpper toCurrency, none⟩, cache)
  else
    match getExchangeRate now fetch cache fromCurrency toCurrency with
    | (.ok rate, cache') =>
      (⟨true, some (amount * rate), some rate, amount,
        strUpper fromCurrency, strUpper toCurrency, none⟩, cache')
    | (.error msg, cache') =>
      (⟨false, none, none, amount, fromCurrency, toCurrency, some msg⟩, cache')

/- ## agent.js (src/unnamed/part_000) -/

/-- One element of `this.conversationHistory`:
`{ role, parts: [{ text }] }`. -/
structure ChatEntry where
  role : String
  text : String
deriving DecidableEq, Repr

/-- Trim step `if (length > 10) history = history.slice(-10)` (lines 340-342). -/
def trimHistory (history : List ChatEntry) : List ChatEntry :=
  if history.length > 10 then history.drop (history.length - 10) else history

/-- The effect of `processQuery` (lines 320-363) on
`this.conversationHistory`.  The analyze/execute/respond steps are abstracted
into their observable outcome: `failed` is true exactly when one of them
threw (the `catch` path, which does not touch the history), and
`finalResponse` is the text pushed as the model turn on success. -/
def processQueryHistory (history : List ChatEntry) (userQuery finalResponse : String)
    (failed : Bool) : List ChatEntry :=
  if failed then history
  else trimHistory (history ++ [⟨"user", userQuery⟩, ⟨"model", finalResponse⟩])

/- ## Helper lemmas about the unit table -/

theorem findMeasure_spec {u m : String} (h : findMeasure u = some m) :
    ∃ p, p ∈ conversions ∧ p.1 = m ∧ ∃ q, q ∈ p.2 ∧ q.1 = u := by
  unfold findMeasure at h
  cases hf : conversions.find? (fun p => p.2.any (fun q => q.1 == u)) with
  | none => rw [hf] at h; cases h
  | some p =>
    rw [hf] at h
    have hm : p.1 = m := by simpa using h
    have hp : p ∈ conversions := List.mem_of_find?_eq_some hf
    have hq := @List.find?_some _
      (fun r : String × List (String × UnitData) => r.2.any (fun q => q.1 == u)) _ _ hf
    simp only [List.any_eq_true] at hq
    obtain ⟨q, hq1, hq2⟩ := hq
    exact ⟨p, hp, hm, q, hq1, by simpa using hq2⟩

theorem table_lookupUnit :
    ∀ p ∈ conversions, ∀ q ∈ p.2, lookupUnit p.1 q.1 = some q.2 := by
  intro p hp
  fin_cases hp <;> (intro q hq; fin_cases hq <;> rfl)

theorem table_ratio_pos :
    ∀ p ∈ conversions, p.1 ≠ "temperature" → ∀ q ∈ p.2, 0 < q.2.ratio := by
  intro p hp
  fin_cases hp <;> intro hne q hq <;>
    first
    | exact absurd rfl hne
    | (fin_cases hq <;> norm_num)

theorem temperature_units :
    ∀ p ∈ conversions, p.1 = "temperature" →
      ∀ q ∈ p.2, q.1 = "C" ∨ q.1 = "F" ∨ q.1 = "K" ∨ q.1 = "R" := by
  intro p hp
  fin_cases hp <;> intro he q hq <;>
    first
    | (exact absurd he (by decide))
    | (fin_cases hq <;> simp)

theorem convertTemperature_round_trip (x : ℚ) (a b : String)
    (ha : a = "C" ∨ a = "F" ∨ a = "K" ∨ a = "R")
    (hb : b = "C" ∨ b = "F" ∨ b = "K" ∨ b = "R") :
    ∃ y, convertTemperature x a b = .ok y ∧ convertTemperature y b a = .ok x := by
  rcases ha with rfl | rfl | rfl | rfl <;> rcases hb with rfl | rfl | rfl | rfl <;>
    refine ⟨_, rfl, ?_⟩ <;>
    (show Except.ok _ = Except.ok _) <;>
    exact congrArg Except.ok (by ring)

/- ## Claim theorems -/

/-- Claim C1 (code bug witness).  `getThanksgiving` is documented as
computing the fourth Thursday of November, but for 2020 (November 1, 2020 is
a Sunday, weekday 0) it evaluates to November 22, 2020 — a Sunday — while the
actual fourth Thursday of November 2020 is November 26; in particular the
resolved date is neither a Thursday nor in the claimed range semantics. -/
theorem C1_thanksgiving_rule_eval :
    getThanksgiving 2020 = ⟨2020, 10, 22⟩ ∧
    jsWeekday (absOfYmd (getThanksgiving 2020)) = 0 ∧
    specFourthThursdayOfNovember 2020 = ⟨2020, 10, 26⟩ ∧
    jsWeekday (absOfYmd (specFourthThursdayOfNovember 2020)) = 4 ∧
    getThanksgiving 2020 ≠ specFourthThursdayOfNovember 2020 := by decide

/-- Claim C3: for the two currency tokens agree case-insensitively,
`convertCurrency` succeeds with rate exactly 1 and result exactly the input
amount, for every fetch outcome and every cache, and the cache is returned
untouched (no fetch or cache access influences the result). -/
theorem C3_same_currency_identity (now : ℤ) (fetch : FetchOutcome) (cache : Cache)
    (amount : ℚ) (fromCurrency toCurrency : String)
    (h : strLower fromCurrency = strLower toCurrency) :
    convertCurrency now fetch cache amount fromCurrency toCurrency =
      (⟨true, some amount, some 1, amount,
        strUpper fromCurrency, strUpper toCurrency, none⟩, cache) := by
  simp [convertCurrency, h]

theorem C3_same_currency_identity_witness :
    convertCurrency 0 (.error "network down") [] 7 "USD" "usd" =
      (⟨true, some 7, some 1, 7, "USD", "USD", none⟩, []) :=
  C3_same_currency_identity 0 (.error "network down") [] 7 "USD" "usd" (by decide)

/-- Claim C5: for every current instant, resolving "new year" or "new years"
(after lower-casing and trimming) yields January 1 (month index 0) of
`currentYear + 1`, a year strictly greater than the current one. -/
theorem C5_new_year_next_year (now : Now) (s : String)
    (h : strTrim (strLower s) = "new year" ∨ strTrim (strLower s) = "new years") :
    parseSpecialDates now s = some ⟨now.year + 1, 0, 1⟩ ∧
      now.year < now.year + 1 := by
  refine ⟨?_, Nat.lt_succ_self _⟩
  rcases h with h | h <;> simp [parseSpecialDates, h]

theorem C5_new_year_next_year_witness :
    parseSpecialDates ⟨2025, 739234, true⟩ " New YEAR " = some ⟨2026, 0, 1⟩ ∧
      2025 < 2026 :=
  C5_new_year_next_year ⟨2025, 739234, true⟩ " New YEAR " (Or.inl (by decide))

/-- Claim C2: converting within one measurement category and back reproduces
the input exactly over exact rational arithmetic — for the ratio categories
via `value * fromRatio / toRatio`, and for temperature via the linear
Celsius-intermediate formulas (so in particular within any floating-point
tolerance, including 1e-9 for F→C→F and K→C→K). -/
theorem C2_unit_round_trip (x : ℚ) (u v m : String)
    (hu : findMeasure u = some m) (hv : findMeasure v = some m) :
    ∃ y, convertTo x u v = .ok y ∧ convertTo y v u = .ok x := by
  obtain ⟨p, hp, hpm, q, hq, hqu⟩ := findMeasure_spec hu
  obtain ⟨p', hp', hpm', q', hq', hqv⟩ := findMeasure_spec hv
  by_cases hm : m = "temperature"
  · have ha : u = "C" ∨ u = "F" ∨ u = "K" ∨ u = "R" := by
      rw [← hqu]; exact temperature_units p hp (hpm.trans hm) q hq
    have hb : v = "C" ∨ v = "F" ∨ v = "K" ∨ v = "R" := by
      rw [← hqv]; exact temperature_units p' hp' (hpm'.trans hm) q' hq'
    obtain ⟨y, h1, h2⟩ := convertTemperature_round_trip x u v ha hb
    subst hm
    exact ⟨y, by simp [convertTo, hu, h1], by simp [convertTo, hv, h2]⟩
  · have hdu : lookupUnit m u = some q.2 := by
      rw [← hpm, ← hqu]; exact table_lookupUnit p hp q hq
    have hdv : lookupUnit m v = some q'.2 := by
      rw [← hpm', ← hqv]; exact table_lookupUnit p' hp' q' hq'
    have hru : 0 < q.2.ratio := table_ratio_pos p hp (by rw [hpm]; exact hm) q hq
    have hrv : 0 < q'.2.ratio := table_ratio_pos p' hp' (by rw [hpm']; exact hm) q' hq'
    have e1 : x * q.2.ratio / q'.2.ratio * q'.2.ratio / q.2.ratio = x := by
      rw [div_mul_cancel₀ _ (ne_of_gt hrv), mul_div_cancel_right₀ _ (ne_of_gt hru)]
    refine ⟨x * q.2.ratio / q'.2.ratio, ?_, ?_⟩
    · simp [convertTo, hu, hm, hdu, hdv]
    · simp [convertTo, hv, hm, hdu, hdv, e1]

theorem C2_unit_round_trip_witness :
    ∃ y, convertTo 5 "mi" "km" = .ok y ∧ convertTo y "km" "mi" = .ok 5 :=
  C2_unit_round_trip 5 "mi" "km" "length" (by decide) (by decide)

/-- Claim C4: after normalization, the unit pipeline rejects incompatible or
unknown unit pairs (`canConvert` false) with a `success: false` result whose
message names both units; `canConvert` is false whenever the measures differ
or a unit is unknown; for two units of one non-temperature measure the result
is `value * fromRatio / toRatio`; and on a temperature source unit
`Convert.to` delegates to `convertTemperature` (never the ratio path). -/
theorem C4_unit_pipeline (value : ℚ) (rawFrom rawTo : String) :
    (canConvert (normalizeUnit rawFrom) (normalizeUnit rawTo) = false →
      handleParsedConversion value rawFrom rawTo =
        ⟨false, none,
         some ("Cannot convert from " ++ normalizeUnit rawFrom ++ " to " ++
           normalizeUnit rawTo ++ ". Units may be incompatible or not supported."),
         value, normalizeUnit rawFrom, normalizeUnit rawTo⟩) ∧
    (∀ m1 m2, findMeasure (normalizeUnit rawFrom) = some m1 →
      findMeasure (normalizeUnit rawTo) = some m2 → m1 ≠ m2 →
      canConvert (normalizeUnit rawFrom) (normalizeUnit rawTo) = false) ∧
    (findMeasure (normalizeUnit rawFrom) = none ∨
        findMeasure (normalizeUnit rawTo) = none →
      canConvert (normalizeUnit rawFrom) (normalizeUnit rawTo) = false) ∧
    (∀ m, m ≠ "temperature" → findMeasure (normalizeUnit rawFrom) = some m →
      findMeasure (normalizeUnit rawTo) = some m →
      ∃ fromData toData,
        lookupUnit m (normalizeUnit rawFrom) = some fromData ∧
        lookupUnit m (normalizeUnit rawTo) = some toData ∧
        handleParsedConversion value rawFrom rawTo =
          ⟨true, some (value * fromData.ratio / toData.ratio), none, value,
           normalizeUnit rawFrom, normalizeUnit rawTo⟩) ∧
    (findMeasure (normalizeUnit rawFrom) = some "temperature" →
      convertTo value (normalizeUnit rawFrom) (normalizeUnit rawTo) =
        convertTemperature value (normalizeUnit rawFrom) (normalizeUnit rawTo)) := by
  refine ⟨?_, ?_, ?_, ?_, ?_⟩
  · intro h
    simp [handleParsedConversion, h]
  · intro m1 m2 h1 h2 hne
    simp [canConvert, h1, h2, hne]
  · intro h
    rcases h with h | h
    · cases h2 : findMeasure (normalizeUnit rawTo) <;> simp [canConvert, h, h2]
    · cases h1 : findMeasure (normalizeUnit rawFrom) <;> simp [canConvert, h, h1]
  · intro m hm h1 h2
    obtain ⟨p, hp, hpm, q, hq, hqu⟩ := findMeasure_spec h1
    obtain ⟨p', hp', hpm', q', hq', hqv⟩ := findMeasure_spec h2
    have hdu : lookupUnit m (normalizeUnit rawFrom) = some q.2 := by
      rw [← hpm, ← hqu]; exact table_lookupUnit p hp q hq
    have hdv : lookupUnit m (normalizeUnit rawTo) = some q'.2 := by
      rw [← hpm', ← hqv]; exact table_lookupUnit p' hp' q' hq'
    have hcan : canConvert (normalizeUnit rawFrom) (normalizeUnit rawTo) = true := by
      simp [canConvert, h1, h2]
    refine ⟨q.2, q'.2, hdu, hdv, ?_⟩
    simp [handleParsedConversion, hcan, convertUnits, convertTo, h1, hm, hdu, hdv]
  · intro h
    simp [convertTo, h]

theorem C4_unit_pipeline_witness :
    handleParsedConversion 5 "miles" "kg" =
      ⟨false, none,
       some "Cannot convert from mi to kg. Units may be incompatible or not supported.",
       5, "mi", "kg"⟩ :=
  (C4_unit_pipeline 5 "miles" "kg").1 (by decide)

/-- Claim C6: with no usable cache entry and a failing fetch, the error is
caught and the fallback table is consulted; when the ordered pair is absent
there too, `convertCurrency` returns a `success: false` result carrying the
original error message and the original amount and currency inputs (and, being
a total function, never throws); when the pair is present, the fallback rate
is used. -/
theorem C6_currency_fallback_error (now : ℤ) (cache : Cache) (amount : ℚ)
    (fromCurrency toCurrency msg : String)
    (hdiff : strLower fromCurrency ≠ strLower toCurrency)
    (hstale : ∀ e, cacheGet cache (cacheKeyOf fromCurrency toCurrency) = some e →
      ¬(now - e.timestamp < cacheTimeout)) :
    (getFallbackRate fromCurrency toCurrency = none →
      convertCurrency now (.error msg) cache amount fromCurrency toCurrency =
        (⟨false, none, none, amount, fromCurrency, toCurrency, some msg⟩, cache)) ∧
    (∀ r, getFallbackRate fromCurrency toCurrency = some r →
      convertCurrency now (.error msg) cache amount fromCurrency toCurrency =
        (⟨true, some (amount * r), some r, amount,
          strUpper fromCurrency, strUpper toCurrency, none⟩, cache)) := by
  have hger : getExchangeRate now (.error msg) cache fromCurrency toCurrency =
      rateFallbackOr cache fromCurrency toCurrency msg := by
    cases he : cacheGet cache (cacheKeyOf fromCurrency toCurrency) with
    | none => simp [getExchangeRate, he, fetchExchangeRate]
    | some e => simp [getExchangeRate, he, hstale e he, fetchExchangeRate]
  constructor
  · intro hfb
    have hr : rateFallbackOr cache fromCurrency toCurrency msg = (.error msg, cache) := by
      simp [rateFallbackOr, hfb]
    simp [convertCurrency, hdiff, hger, hr]
  · intro r hfb
    have hr : rateFallbackOr cache fromCurrency toCurrency msg = (.ok r, cache) := by
      simp [rateFallbackOr, hfb]
    simp [convertCurrency, hdiff, hger, hr]

theorem C6_currency_fallback_error_witness :
    convertCurrency 0 (.error "HTTP 503") [] 3 "EUR" "CAD" =
      (⟨false, none, none, 3, "EUR", "CAD", some "HTTP 503"⟩, []) :=
  (C6_currency_fallback_error 0 [] 3 "EUR" "CAD" "HTTP 503" (by decide)
    (fun e he => by simp [cacheGet] at he)).1 (by decide)

/-- Claim C7: the method `getExchangeRate` answers from the cache, without consulting the
fetch, exactly for a cache entry under the lowercase from-to key younger than
10 minutes (strict); on a miss or stale entry it goes to the fetch, and a
successful fetch containing the (truthy) target rate stores that rate under
the same lowercase key with the current timestamp. -/
theorem C7_rate_cache (now : ℤ) (cache : Cache) (fromCurrency toCurrency : String) :
    (∀ e, cacheGet cache (cacheKeyOf fromCurrency toCurrency) = some e →
      now - e.timestamp < cacheTimeout →
      ∀ fetch, getExchangeRate now fetch cache fromCurrency toCurrency =
        (.ok e.rate, cache)) ∧
    ((∀ e, cacheGet cache (cacheKeyOf fromCurrency toCurrency) = some e →
        ¬(now - e.timestamp < cacheTimeout)) →
      ∀ rates rate, ratesGet rates (strUpper toCurrency) = some rate → rate ≠ 0 →
      getExchangeRate now (.ok rates) cache fromCurrency toCurrency =
        (.ok rate, cacheSet cache (cacheKeyOf fromCurrency toCurrency) ⟨rate, now⟩)) := by
  constructor
  · intro e he hfresh fetch
    simp [getExchangeRate, he, hfresh]
  · intro hstale rates rate hrates hne
    have hfetch : fetchExchangeRate now (.ok rates) cache
        (cacheKeyOf fromCurrency toCurrency) fromCurrency toCurrency =
        (.ok rate, cacheSet cache (cacheKeyOf fromCurrency toCurrency) ⟨rate, now⟩) := by
      simp [fetchExchangeRate, hrates, hne]
    cases he : cacheGet cache (cacheKeyOf fromCurrency toCurrency) with
    | none => simp [getExchangeRate, he, hfetch]
    | some e => simp [getExchangeRate, he, hstale e he, hfetch]

theorem C7_rate_cache_witness :
    getExchangeRate 1000 (.error "x") [("usd-eur", ⟨2, 0⟩)] "USD" "EUR" =
      (.ok 2, [("usd-eur", ⟨2, 0⟩)]) ∧
    getExchangeRate 5 (.ok [("EUR", 3)]) [] "usd" "eur" =
      (.ok 3, [("usd-eur", ⟨3, 5⟩)]) := by
  constructor
  · exact (C7_rate_cache 1000 [("usd-eur", ⟨2, 0⟩)] "USD" "EUR").1 ⟨2, 0⟩
      (by decide) (by decide) (.error "x")
  · exact (C7_rate_cache 5 [] "usd" "eur").2
      (fun e he => by simp [cacheGet] at he) [("EUR", 3)] 3 (by decide) (by decide)

/-- Claim C10: the cache is written only when the fetch succeeds and contains
a truthy rate for the target currency; a failed fetch, or a response without
the target rate — i.e. every conversion answered by the fallback table or by
an error — returns the cache exactly as it was. -/
theorem C10_fallback_leaves_cache (now : ℤ) (cache : Cache)
    (fromCurrency toCurrency : String) :
    (∀ msg, (getExchangeRate now (.error msg) cache fromCurrency toCurrency).2 = cache) ∧
    (∀ rates, (ratesGet rates (strUpper toCurrency)).getD 0 = 0 →
      (getExchangeRate now (.ok rates) cache fromCurrency toCurrency).2 = cache) := by
  constructor
  · intro msg
    cases he : cacheGet cache (cacheKeyOf fromCurrency toCurrency) with
    | none =>
      cases hfb : getFallbackRate fromCurrency toCurrency <;>
        simp [getExchangeRate, he, fetchExchangeRate, rateFallbackOr, hfb]
    | some e =>
      by_cases hfr : now - e.timestamp < cacheTimeout
      · simp [getExchangeRate, he, hfr]
      · cases hfb : getFallbackRate fromCurrency toCurrency <;>
          simp [getExchangeRate, he, hfr, fetchExchangeRate, rateFallbackOr, hfb]
  · intro rates h0
    have hfetch : (fetchExchangeRate now (.ok rates) cache
        (cacheKeyOf fromCurrency toCurrency) fromCurrency toCurrency).2 = cache := by
      cases hr : ratesGet rates (strUpper toCurrency) with
      | none =>
        cases hfb : getFallbackRate fromCurrency toCurrency <;>
          simp [fetchExchangeRate, hr, rateFallbackOr, hfb]
      | some r =>
        have hr0 : r = 0 := by rw [hr] at h0; simpa using h0
        subst hr0
        cases hfb : getFallbackRate fromCurrency toCurrency <;>
          simp [fetchExchangeRate, hr, rateFallbackOr, hfb]
    cases he : cacheGet cache (cacheKeyOf fromCurrency toCurrency) with
    | none => simp [getExchangeRate, he, hfetch]
    | some e =>
      by_cases hfr : now - e.timestamp < cacheTimeout
      · simp [getExchangeRate, he, hfr]
      · simp [getExchangeRate, he, hfr, hfetch]

theorem C10_fallback_leaves_cache_witness :
    (getExchangeRate 5 (.error "boom") [] "usd" "eur").2 = [] ∧
    (getExchangeRate 5 (.ok []) [] "usd" "eur").2 = [] :=
  ⟨(C10_fallback_leaves_cache 5 [] "usd" "eur").1 "boom",
   (C10_fallback_leaves_cache 5 [] "usd" "eur").2 [] (by decide)⟩

/-- The two sequential mutating `if`s of `applyAmPm`, written as one
expression (pure zeta-reduction of the definition). -/
theorem applyAmPm_eq (hours : ℕ) (period : Option String) :
    applyAmPm hours period =
      if period == some "AM" &&
          (if period == some "PM" && hours != 12 then hours + 12 else hours) == 12
      then 0
      else if period == some "PM" && hours != 12 then hours + 12 else hours := rfl

/-- Claim C8: in the timezone branch, "12 AM" normalizes to hour 0, "12 PM"
stays 12, a PM marker adds 12 to every hour strictly below 12, and the
normalized hours and minutes are combined with today's calendar date (the
resulting instant keeps today's day for any in-range clock reading). -/
theorem C8_timezone_ampm (todayDay : ℤ) :
    applyAmPm 12 (some "AM") = 0 ∧
    applyAmPm 12 (some "PM") = 12 ∧
    (∀ hours, hours < 12 → applyAmPm hours (some "PM") = hours + 12) ∧
    (∀ hours minutes period, hours ≤ 12 → minutes < 60 →
      timezoneBranchMoment todayDay hours minutes period =
        ⟨todayDay, (applyAmPm hours period : ℤ) * 60 + (minutes : ℤ)⟩) := by
  refine ⟨by decide, by decide, ?_, ?_⟩
  · intro hours hlt
    have hne : hours ≠ 12 := Nat.ne_of_lt hlt
    simp [applyAmPm, hne,
      show ((some "PM" : Option String) == some "AM") = false from rfl]
  · intro hours minutes period hh hm
    have hb : applyAmPm hours period ≤ 23 := by
      rw [applyAmPm_eq]
      split
      · rename_i hcc
        have h12 : hours ≠ 12 := by
          have := (Bool.and_eq_true _ _).mp hcc
          simpa using this.2
        split <;> omega
      · split <;> omega
    have h0 : (0 : ℤ) ≤ (applyAmPm hours period : ℤ) * 60 + (minutes : ℤ) := by
      positivity
    have h1 : (applyAmPm hours period : ℤ) * 60 + (minutes : ℤ) < 1440 := by
      omega
    simp only [timezoneBranchMoment, setTodayTime]
    rw [Int.ediv_eq_zero_of_lt h0 h1, Int.emod_eq_of_lt h0 h1]
    simp

theorem C8_timezone_ampm_witness :
    applyAmPm 12 (some "AM") = 0 ∧
    applyAmPm 3 (some "PM") = 3 + 12 ∧
    timezoneBranchMoment 100 3 30 (some "PM") = ⟨100, 930⟩ := by
  refine ⟨(C8_timezone_ampm 100).1, (C8_timezone_ampm 100).2.2.1 3 (by decide), ?_⟩
  exact ((C8_timezone_ampm 100).2.2.2 3 30 (some "PM") (by decide) (by decide)).trans
    (by decide)

/-- Claim C9: the method `processQuery` leaves the conversation history unchanged on the
error path; on success it appends the user and model entries and trims the
list to its last 10 elements (5 exchanges), so the history never exceeds 10
entries once it is within the bound. -/
theorem C9_conversation_history_bound (history : List ChatEntry)
    (userQuery finalResponse : String) (hb : history.length ≤ 10) :
    processQueryHistory history userQuery finalResponse true = history ∧
    (∃ pre, processQueryHistory history userQuery finalResponse false =
      pre ++ [⟨"user", userQuery⟩, ⟨"model", finalResponse⟩]) ∧
    (processQueryHistory history userQuery finalResponse false).length =
      min (history.length + 2) 10 ∧
    (∀ failed, (processQueryHistory history userQuery finalResponse failed).length ≤ 10) := by
  have hfalse : processQueryHistory history userQuery finalResponse false =
      trimHistory (history ++ [⟨"user", userQuery⟩, ⟨"model", finalResponse⟩]) := by
    simp [processQueryHistory]
  have hlen : (history ++ [(⟨"user", userQuery⟩ : ChatEntry), ⟨"model", finalResponse⟩]).length =
      history.length + 2 := by simp
  by_cases hc : history.length + 2 > 10
  · have hdrop : processQueryHistory history userQuery finalResponse false =
        history.drop (history.length + 2 - 10) ++
          [⟨"user", userQuery⟩, ⟨"model", finalResponse⟩] := by
      rw [hfalse]
      unfold trimHistory
      rw [hlen, if_pos hc]
      exact List.drop_append_of_le_length (by omega)
    refine ⟨rfl, ⟨_, hdrop⟩, ?_, ?_⟩
    · rw [hdrop]
      simp only [List.length_append, List.length_drop, List.length_cons,
        List.length_nil]
      omega
    · intro failed
      cases failed
      · rw [hdrop]
        simp only [List.length_append, List.length_drop, List.length_cons,
          List.length_nil]
        omega
      · simpa using hb
  · have hkeep : processQueryHistory history userQuery finalResponse false =
        history ++ [⟨"user", userQuery⟩, ⟨"model", finalResponse⟩] := by
      rw [hfalse]
      unfold trimHistory
      rw [hlen, if_neg hc]
    refine ⟨rfl, ⟨history, hkeep⟩, ?_, ?_⟩
    · rw [hkeep, hlen]
      omega
    · intro failed
      cases failed
      · rw [hkeep, hlen]
        omega
      · simpa using hb

theorem C9_conversation_history_bound_witness :
    processQueryHistory [] "q" "r" true = [] ∧
    (∃ pre, processQueryHistory [] "q" "r" false =
      pre ++ [⟨"user", "q"⟩, ⟨"model", "r"⟩]) ∧
    (processQueryHistory [] "q" "r" false).length = min (0 + 2) 10 ∧
    (∀ failed, (processQueryHistory [] "q" "r" failed).length ≤ 10) :=
  C9_conversation_history_bound [] "q" "r" (by decide)

